import Mathlib

/-!
Verification of the feedforward-network / checkpoint notebooks.

Tensors are embedded as lists of rationals (exact arithmetic; the
floating-point "serialization tolerance" of the spec is realised as exact
equality).  A weight tensor additionally records its column count, as the
framework's tensors carry their full shape as metadata even when a
dimension is zero.
-/

/-- A tensor of the state dict: either a bias vector or a weight matrix.
The `cols` field of `mat` records the second dimension of the shape. -/
inductive Tensor where
  | vec (v : List ℚ)
  | mat (cols : Nat) (rows : List (List ℚ))
deriving DecidableEq

/-- Shape of a tensor, as the framework reports it: `[n]` for a vector,
`[rows, cols]` for a matrix. -/
def Tensor.shape : Tensor → List Nat
  | .vec v => [v.length]
  | .mat cols rows => [rows.length, cols]

/-- A fully connected (affine) layer: `nn.Linear(inFeatures, outFeatures)`,
with a weight matrix of shape `[outFeatures, inFeatures]` and a bias vector
of length `outFeatures`. -/
structure Linear where
  inFeatures : Nat
  outFeatures : Nat
  weight : List (List ℚ)
  bias : List ℚ
deriving DecidableEq

/-- Well-formedness of a layer's parameter tensors: the weight matrix has
`outFeatures` rows of length `inFeatures` and the bias has length
`outFeatures`. -/
def Linear.wfShape (l : Linear) : Prop :=
  l.weight.length = l.outFeatures ∧
  (∀ r ∈ l.weight, r.length = l.inFeatures) ∧
  l.bias.length = l.outFeatures

/-- A freshly allocated layer whose parameter values are produced by the
initializer functions `gw` (weights) and `gb` (biases); the framework draws
these from its random-number state. -/
def Linear.init (inF outF : Nat) (gw : Nat → Nat → ℚ) (gb : Nat → ℚ) : Linear :=
  { inFeatures := inF
    outFeatures := outF
    weight := (List.range outF).map (fun r => (List.range inF).map (gw r))
    bias := (List.range outF).map gb }

/-- Dot product of two rational vectors. -/
def dot (r x : List ℚ) : ℚ := (List.zipWith (fun a b => a * b) r x).sum

/-- Application of an affine layer to an input vector. -/
def Linear.apply (l : Linear) (x : List ℚ) : List ℚ :=
  List.zipWith (fun row bi => dot row x + bi) l.weight l.bias

/-- Rectified linear nonlinearity, applied elementwise. -/
def relu (v : List ℚ) : List ℚ := v.map (fun a => max a 0)

/-- The `fc_model.Network` model: a list of hidden affine layers, a final
output affine layer, and a dropout probability (the printed repr in the
checkpoint notebook shows `Dropout(p=0.5)`). -/
structure Network where
  hidden_layers : List Linear
  output : Linear
  drop_p : ℚ
deriving DecidableEq

/-- Hidden layers allocated for the consecutive pairs of the widths
sequence, starting from width `cur`; `i` numbers the layers so each gets
its own initializer slice. -/
def makeHidden (gw : Nat → Nat → Nat → ℚ) (gb : Nat → Nat → ℚ) :
    Nat → Nat → List Nat → List Linear
  | _, _, [] => []
  | i, cur, h :: hs => Linear.init cur h (gw i) (gb i) :: makeHidden gw gb (i + 1) h hs

/-- Modelled from the spec: the `fc_model.Network` constructor (the file
`fc_model.py` is imported by the checkpoint notebook but is not among the
provided sources).  Per spec §4.1 it allocates one affine transform per
consecutive pair in `[input_size, hidden_1, ..., hidden_k]` plus one final
affine transform from `hidden_k` to `output_size`, and an empty hidden
sequence legally yields a single direct input-to-output transform. -/
def Network.make (inputSize outputSize : Nat) (hidden : List Nat)
    (gw : Nat → Nat → Nat → ℚ) (gb : Nat → Nat → ℚ) : Network :=
  { hidden_layers := makeHidden gw gb 0 inputSize hidden
    output := Linear.init (hidden.getLastD inputSize) outputSize
      (gw hidden.length) (gb hidden.length)
    drop_p := 1 / 2 }

/-- Hidden-layer part of the state dict, with entries named
`hidden_layers.<i>.weight` / `hidden_layers.<i>.bias`. -/
def sdAux : Nat → List Linear → List (String × Tensor)
  | _, [] => []
  | i, l :: ls =>
    ("hidden_layers." ++ Nat.repr i ++ ".weight", Tensor.mat l.inFeatures l.weight) ::
    ("hidden_layers." ++ Nat.repr i ++ ".bias", Tensor.vec l.bias) ::
    sdAux (i + 1) ls

/-- The model's state dict: the named parameter tensors of every hidden
layer followed by those of the output layer (matching the key order the
notebook prints). -/
def Network.state_dict (net : Network) : List (String × Tensor) :=
  sdAux 0 net.hidden_layers ++
    [("output.weight", Tensor.mat net.output.inFeatures net.output.weight),
     ("output.bias", Tensor.vec net.output.bias)]

/-- Chaining well-formedness of a list of layers starting from width
`cur`: each layer consumes the width the previous one produced, and its
tensors match its declared features. -/
def chainFrom : Nat → List Linear → Prop
  | _, [] => True
  | cur, l :: ls => l.inFeatures = cur ∧ l.wfShape ∧ chainFrom l.outFeatures ls

/-- The width produced by the last of the layers `ls`, or `cur` if there
are none. -/
def lastWidth (cur : Nat) (ls : List Linear) : Nat :=
  (ls.map Linear.outFeatures).getLastD cur

/-- Well-formedness of a network with respect to declared input and output
sizes: hidden layers chain from `inputSize` and the output layer maps the
last hidden width to `outputSize`. -/
def Network.wf (net : Network) (inputSize outputSize : Nat) : Prop :=
  chainFrom inputSize net.hidden_layers ∧
  net.output.inFeatures = lastWidth inputSize net.hidden_layers ∧
  net.output.outFeatures = outputSize ∧
  net.output.wfShape

theorem Linear.init_wfShape (inF outF : Nat) (gw : Nat → Nat → ℚ) (gb : Nat → ℚ) :
    (Linear.init inF outF gw gb).wfShape := by
  refine ⟨by simp [Linear.init], ?_, by simp [Linear.init]⟩
  intro r hr
  simp only [Linear.init, List.mem_map] at hr
  obtain ⟨j, -, rfl⟩ := hr
  simp [Linear.init]

theorem makeHidden_length (gw : Nat → Nat → Nat → ℚ) (gb : Nat → Nat → ℚ) :
    ∀ (hs : List Nat) (i cur : Nat), (makeHidden gw gb i cur hs).length = hs.length
  | [], _, _ => rfl
  | _ :: hs, i, _ => by
    simp [makeHidden, makeHidden_length gw gb hs (i + 1) _]

theorem makeHidden_map_out (gw : Nat → Nat → Nat → ℚ) (gb : Nat → Nat → ℚ) :
    ∀ (hs : List Nat) (i cur : Nat),
      (makeHidden gw gb i cur hs).map Linear.outFeatures = hs
  | [], _, _ => rfl
  | h :: hs, i, cur => by
    simp [makeHidden, Linear.init, makeHidden_map_out gw gb hs (i + 1) h]

theorem makeHidden_map_in (gw : Nat → Nat → Nat → ℚ) (gb : Nat → Nat → ℚ) :
    ∀ (hs : List Nat) (i cur : Nat),
      (makeHidden gw gb i cur hs).map Linear.inFeatures ++ [hs.getLastD cur] = cur :: hs
  | [], _, _ => rfl
  | h :: hs, i, cur => by
    have ih := makeHidden_map_in gw gb hs (i + 1) h
    simp only [makeHidden, List.map_cons, List.cons_append, List.getLastD_cons]
    simp only [Linear.init]
    rw [ih]

theorem chain_makeHidden (gw : Nat → Nat → Nat → ℚ) (gb : Nat → Nat → ℚ) :
    ∀ (hs : List Nat) (i cur : Nat), chainFrom cur (makeHidden gw gb i cur hs)
  | [], _, _ => trivial
  | h :: hs, i, cur => by
    refine ⟨rfl, Linear.init_wfShape _ _ _ _, ?_⟩
    exact chain_makeHidden gw gb hs (i + 1) h

theorem make_wf (inputSize outputSize : Nat) (hidden : List Nat)
    (gw : Nat → Nat → Nat → ℚ) (gb : Nat → Nat → ℚ) :
    (Network.make inputSize outputSize hidden gw gb).wf inputSize outputSize := by
  refine ⟨chain_makeHidden gw gb hidden 0 inputSize, ?_, rfl, Linear.init_wfShape _ _ _ _⟩
  simp [Network.make, lastWidth, Linear.init, makeHidden_map_out]

/-- C3: constructing a Network from `input_size`, `output_size`, and a
hidden-widths sequence (including the empty one, which legally yields a
single direct input-to-output affine transform) allocates exactly
`hidden.length + 1` affine transforms whose in/out widths chain
consecutively through `input_size :: hidden ++ [output_size]`, with
parameter tensor shapes matching those widths with no gaps. -/
theorem network_shape_chaining (inputSize outputSize : Nat) (hidden : List Nat)
    (gw : Nat → Nat → Nat → ℚ) (gb : Nat → Nat → ℚ) :
    ((Network.make inputSize outputSize hidden gw gb).hidden_layers ++
        [(Network.make inputSize outputSize hidden gw gb).output]).length
      = hidden.length + 1 ∧
    ((Network.make inputSize outputSize hidden gw gb).hidden_layers ++
        [(Network.make inputSize outputSize hidden gw gb).output]).map Linear.inFeatures
      = inputSize :: hidden ∧
    ((Network.make inputSize outputSize hidden gw gb).hidden_layers ++
        [(Network.make inputSize outputSize hidden gw gb).output]).map Linear.outFeatures
      = hidden ++ [outputSize] ∧
    (Network.make inputSize outputSize hidden gw gb).wf inputSize outputSize := by
  refine ⟨?_, ?_, ?_, make_wf _ _ _ _ _⟩
  · simp [Network.make, makeHidden_length]
  · have := makeHidden_map_in gw gb hidden 0 inputSize
    simpa [Network.make, Linear.init] using this
  · simp [Network.make, Linear.init, makeHidden_map_out]

/-- A shape conflict found while loading a state dict: the parameter's
name, its shape in the model, and its shape in the checkpoint. -/
structure Mismatch where
  name : String
  modelShape : List Nat
  checkpointShape : List Nat
deriving DecidableEq

/-- Failure modes of strict state-dict loading. -/
inductive LoadError where
  | keyMismatch
  | shapeMismatch (ms : List Mismatch)
deriving DecidableEq

/-- A layer with its weight and bias replaced by the given tensors (the
tensors are known to have matching shapes whenever this is reached from
`Network.load_state_dict`; on a kind mismatch the layer is returned
unchanged). -/
def Linear.withParams (l : Linear) : Tensor → Tensor → Linear
  | .mat _ w, .vec b => { l with weight := w, bias := b }
  | _, _ => l

/-- Copy parameter tensors into the layers positionally, two tensors
(weight, bias) per layer. -/
def applyParams : List Linear → List Tensor → List Linear
  | l :: ls, w :: b :: ts => l.withParams w b :: applyParams ls ts
  | ls, _ => ls

/-- A network with every parameter tensor replaced from the given list,
laid out as the state dict is: two tensors per hidden layer, then the
output layer's weight and bias. -/
def Network.setParams (net : Network) (ts : List Tensor) : Network :=
  { net with
    hidden_layers := applyParams net.hidden_layers ts
    output :=
      match ts.drop (2 * net.hidden_layers.length) with
      | [w, b] => net.output.withParams w b
      | _ => net.output }

/-- All shape conflicts between the model's named parameters and the
checkpoint's, compared entrywise. -/
def shapeMismatches (own sd : List (String × Tensor)) : List Mismatch :=
  (own.zip sd).filterMap fun p =>
    if p.1.2.shape = p.2.2.shape then none
    else some ⟨p.1.1, p.1.2.shape, p.2.2.shape⟩

/-- Modelled from the spec: `torch.nn.Module.load_state_dict` (framework
code, not among the provided sources; the checkpoint notebook records its
observable behaviour).  Strict matching per spec §4.4: the key sets must
agree, and if any parameter's shape in the model differs from its shape in
the checkpoint the load fails with an error enumerating every mismatched
parameter name and the two conflicting shapes; only when every shape
matches is the network populated, all-or-nothing. -/
def Network.load_state_dict (net : Network) (sd : List (String × Tensor)) :
    Except LoadError Network :=
  if net.state_dict.map Prod.fst = sd.map Prod.fst then
    match shapeMismatches net.state_dict sd with
    | [] => .ok (net.setParams (sd.map Prod.snd))
    | ms => .error (.shapeMismatch ms)
  else .error .keyMismatch

/-- The checkpoint record assembled by the save cell: the declared input
and output sizes, the hidden widths queried from each hidden layer's
`out_features`, and the model's state dict.  Persisting the record to a
file and reading it back (`torch.save` / `torch.load`) is modelled as the
identity on the record, per spec §6's exact round-trip of the artifact. -/
structure Checkpoint where
  input_size : Nat
  output_size : Nat
  hidden_layers : List Nat
  state_dict : List (String × Tensor)

/-- The save path: builds the checkpoint record from the model being
saved, with `hidden_layers` computed as `[each.out_features for each in
model.hidden_layers]`. -/
def checkpointOf (inputSize outputSize : Nat) (net : Network) : Checkpoint :=
  { input_size := inputSize
    output_size := outputSize
    hidden_layers := net.hidden_layers.map Linear.outFeatures
    state_dict := net.state_dict }

/-- The notebook's `load_checkpoint`: construct a fresh network from the
record's three architecture fields (with initializers `gw`, `gb` standing
for the framework's random initialization) and load the recorded state
dict into it. -/
def load_checkpoint (gw : Nat → Nat → Nat → ℚ) (gb : Nat → Nat → ℚ)
    (c : Checkpoint) : Except LoadError Network :=
  (Network.make c.input_size c.output_size c.hidden_layers gw gb).load_state_dict
    c.state_dict

/-- The key sequence of the hidden part of a state dict with `k` layers,
starting at index `i`. -/
def keyAux : Nat → Nat → List String
  | _, 0 => []
  | i, k + 1 =>
    ("hidden_layers." ++ Nat.repr i ++ ".weight") ::
    ("hidden_layers." ++ Nat.repr i ++ ".bias") :: keyAux (i + 1) k

/-- The parameter tensors of a list of layers, in state-dict order. -/
def tensorsOf : List Linear → List Tensor
  | [] => []
  | l :: ls => Tensor.mat l.inFeatures l.weight :: Tensor.vec l.bias :: tensorsOf ls

/-- The shapes of a state dict's tensors, in order. -/
def sdShapes (sd : List (String × Tensor)) : List (List Nat) :=
  sd.map fun p => p.2.shape

/-- The tensor shapes that the three architecture fields of a checkpoint
record determine, chaining from the input width through the hidden widths
to the output width. -/
def archShapes (outputSize : Nat) : Nat → List Nat → List (List Nat)
  | cur, [] => [[outputSize, cur], [outputSize]]
  | cur, h :: hs => [h, cur] :: [h] :: archShapes outputSize h hs

theorem sdAux_map_fst : ∀ (ls : List Linear) (i : Nat),
    (sdAux i ls).map Prod.fst = keyAux i ls.length
  | [], _ => rfl
  | l :: ls, i => by
    simp [sdAux, keyAux, sdAux_map_fst ls (i + 1)]

theorem sdAux_map_snd : ∀ (ls : List Linear) (i : Nat),
    (sdAux i ls).map Prod.snd = tensorsOf ls
  | [], _ => rfl
  | l :: ls, i => by
    simp [sdAux, tensorsOf, sdAux_map_snd ls (i + 1)]

theorem tensorsOf_length (ls : List Linear) : (tensorsOf ls).length = 2 * ls.length := by
  induction ls with
  | nil => rfl
  | cons l ls ih => simp [tensorsOf, ih]; omega

theorem sdAux_length (ls : List Linear) (i : Nat) :
    (sdAux i ls).length = 2 * ls.length := by
  have h := congrArg List.length (sdAux_map_snd ls i)
  rw [List.length_map] at h
  rw [h, tensorsOf_length]

@[simp] theorem Tensor.shape_vec (v : List ℚ) : (Tensor.vec v).shape = [v.length] := rfl

@[simp] theorem Tensor.shape_mat (c : Nat) (m : List (List ℚ)) :
    (Tensor.mat c m).shape = [m.length, c] := rfl

theorem archShapes_of_chain (outputSize : Nat) :
    ∀ (ls : List Linear) (cur i : Nat), chainFrom cur ls →
      archShapes outputSize cur (ls.map Linear.outFeatures)
        = sdShapes (sdAux i ls) ++
            [[outputSize, (ls.map Linear.outFeatures).getLastD cur], [outputSize]] := by
  intro ls
  induction ls with
  | nil => intro cur i _; rfl
  | cons l ls ih =>
    intro cur i hc
    obtain ⟨hin, ⟨hwl, -, hbl⟩, hrest⟩ := hc
    simp only [List.map_cons, archShapes, sdAux, sdShapes, Tensor.shape_mat,
      Tensor.shape_vec, List.getLastD_cons, List.cons_append]
    rw [hwl, hbl, hin]
    have h' := ih l.outFeatures (i + 1) hrest
    simp only [sdShapes] at h'
    rw [h']

/-- The state dict of a well-formed network has exactly the tensor shapes
that its checkpoint record's architecture fields determine. -/
theorem sdShapes_eq_archShapes (net : Network) (inputSize outputSize : Nat)
    (h : net.wf inputSize outputSize) :
    sdShapes net.state_dict
      = archShapes outputSize inputSize (net.hidden_layers.map Linear.outFeatures) := by
  obtain ⟨hchain, hoin, hoout, hwl, -, hbl⟩ := h
  rw [archShapes_of_chain outputSize net.hidden_layers inputSize 0 hchain]
  simp only [Network.state_dict, sdShapes, List.map_append, Tensor.shape_mat,
    Tensor.shape_vec, List.map_cons, List.map_nil]
  rw [hwl, hbl, hoout, hoin, lastWidth]

theorem shapeMismatches_nil : ∀ own sd : List (String × Tensor),
    sdShapes own = sdShapes sd → shapeMismatches own sd = [] := by
  intro own
  induction own with
  | nil => intro sd _; rfl
  | cons p own ih =>
    intro sd h
    cases sd with
    | nil => simp [sdShapes] at h
    | cons q sd =>
      simp only [sdShapes, List.map_cons, List.cons.injEq] at h
      simp only [shapeMismatches, List.zip_cons_cons, List.filterMap_cons, h.1, if_pos rfl]
      exact ih sd h.2

theorem state_dict_map_fst (net : Network) :
    net.state_dict.map Prod.fst
      = keyAux 0 net.hidden_layers.length ++ ["output.weight", "output.bias"] := by
  simp [Network.state_dict, sdAux_map_fst]

theorem state_dict_map_snd (net : Network) :
    net.state_dict.map Prod.snd
      = tensorsOf net.hidden_layers ++
          [Tensor.mat net.output.inFeatures net.output.weight,
           Tensor.vec net.output.bias] := by
  simp [Network.state_dict, sdAux_map_snd]

theorem applyParams_reconstruct (gw : Nat → Nat → Nat → ℚ) (gb : Nat → Nat → ℚ) :
    ∀ (ls : List Linear) (cur j : Nat) (rest : List Tensor), chainFrom cur ls →
      applyParams (makeHidden gw gb j cur (ls.map Linear.outFeatures))
          (tensorsOf ls ++ rest) = ls := by
  intro ls
  induction ls with
  | nil => intro cur j rest _; rfl
  | cons l ls ih =>
    intro cur j rest hc
    obtain ⟨hin, -, hrest⟩ := hc
    simp only [List.map_cons, makeHidden, tensorsOf, List.cons_append, List.append_eq,
      applyParams]
    rw [ih l.outFeatures (j + 1) rest hrest]
    cases l with
    | mk lin lout lw lb =>
      simp only [Linear.withParams, Linear.init]
      simp only at hin
      rw [hin]

/-- Loading the state dict saved from a well-formed network into a fresh
network built from the record's architecture fields succeeds and
reproduces the original hidden and output layers exactly. -/
theorem load_checkpoint_ok (inputSize outputSize : Nat) (net : Network)
    (gw : Nat → Nat → Nat → ℚ) (gb : Nat → Nat → ℚ) (h : net.wf inputSize outputSize) :
    load_checkpoint gw gb (checkpointOf inputSize outputSize net)
      = .ok { hidden_layers := net.hidden_layers, output := net.output, drop_p := 1 / 2 } := by
  have hfresh :=
    make_wf inputSize outputSize (net.hidden_layers.map Linear.outFeatures) gw gb
  set fresh :=
    Network.make inputSize outputSize (net.hidden_layers.map Linear.outFeatures) gw gb
    with hfdef
  have hklen : fresh.hidden_layers.length = net.hidden_layers.length := by
    rw [hfdef]
    simp [Network.make, makeHidden_length]
  have hkeys : fresh.state_dict.map Prod.fst = net.state_dict.map Prod.fst := by
    rw [state_dict_map_fst, state_dict_map_fst, hklen]
  have hwidths : fresh.hidden_layers.map Linear.outFeatures
      = net.hidden_layers.map Linear.outFeatures := by
    rw [hfdef]
    simp [Network.make, makeHidden_map_out]
  have hshapes : sdShapes fresh.state_dict = sdShapes net.state_dict := by
    rw [sdShapes_eq_archShapes fresh inputSize outputSize hfresh,
      sdShapes_eq_archShapes net inputSize outputSize h, hwidths]
  have hmm : shapeMismatches fresh.state_dict net.state_dict = [] :=
    shapeMismatches_nil _ _ hshapes
  have hsnd := state_dict_map_snd net
  obtain ⟨hchain, hoin, hoout, hopwf⟩ := h
  have happ : applyParams fresh.hidden_layers (net.state_dict.map Prod.snd)
      = net.hidden_layers := by
    rw [hsnd, hfdef]
    exact applyParams_reconstruct gw gb net.hidden_layers inputSize 0 _ hchain
  have hdrop : (net.state_dict.map Prod.snd).drop (2 * fresh.hidden_layers.length)
      = [Tensor.mat net.output.inFeatures net.output.weight,
         Tensor.vec net.output.bias] := by
    rw [hsnd, hklen, ← tensorsOf_length net.hidden_layers]
    exact List.drop_left _ _
  have hout : fresh.output.withParams
      (Tensor.mat net.output.inFeatures net.output.weight)
      (Tensor.vec net.output.bias) = net.output := by
    rw [hfdef]
    cases hnet : net.output with
    | mk oin oout ow ob =>
      simp only [Network.make, Linear.withParams, Linear.init]
      rw [hnet] at hoin hoout
      simp only at hoin hoout
      rw [hoin, hoout, lastWidth]
  rw [load_checkpoint]
  show fresh.load_state_dict (checkpointOf inputSize outputSize net).state_dict = _
  rw [Network.load_state_dict]
  simp only [checkpointOf]
  rw [if_pos hkeys, hmm]
  have hdp : fresh.drop_p = 1 / 2 := by rw [hfdef]; rfl
  simp only [Network.setParams, happ, hdrop, hout, hdp]

/-- Elementwise multiplicative dropout mask; the mask function stands for
the framework's per-unit random zeroing (and its rescaling factor). -/
def dropoutApply (m : Nat → ℚ) (v : List ℚ) : List ℚ :=
  List.zipWith (fun j a => m j * a) (List.range v.length) v

/-- Modelled from the spec: the hidden part of `fc_model.Network.forward`
(not among the provided sources) — each hidden affine transform is
followed by the rectified-linear nonlinearity and, during training only,
by dropout (spec §4.1/§4.30); `i` indexes the per-layer dropout mask. -/
def hiddenPass (training : Bool) (mask : Nat → Nat → ℚ) :
    Nat → List Linear → List ℚ → List ℚ
  | _, [], x => x
  | i, l :: ls, x =>
    hiddenPass training mask (i + 1) ls
      (if training then dropoutApply (mask i) (relu (l.apply x)) else relu (l.apply x))

/-- Modelled from the spec: `fc_model.Network.forward` — the hidden stack
followed by the final affine transform, whose raw output is returned. -/
def Network.forwardWith (net : Network) (training : Bool) (mask : Nat → Nat → ℚ)
    (x : List ℚ) : List ℚ :=
  net.output.apply (hiddenPass training mask 0 net.hidden_layers x)

theorem hiddenPass_eval_mask_irrelevant (m1 m2 : Nat → Nat → ℚ) :
    ∀ (ls : List Linear) (i j : Nat) (x : List ℚ),
      hiddenPass false m1 i ls x = hiddenPass false m2 j ls x
  | [], _, _, _ => rfl
  | l :: ls, i, j, x => by
    simp only [hiddenPass, if_neg Bool.false_ne_true]
    exact hiddenPass_eval_mask_irrelevant m1 m2 ls (i + 1) (j + 1) _

/-- C7: with dropout disabled (training mode off), the forward pass is a
pure function of the network and the input: two passes on the same input,
whatever the dropout randomness would have been, produce identical
output. -/
theorem forward_deterministic_without_dropout (net : Network) (x : List ℚ)
    (m1 m2 : Nat → Nat → ℚ) :
    net.forwardWith false m1 x = net.forwardWith false m2 x := by
  unfold Network.forwardWith
  rw [hiddenPass_eval_mask_irrelevant m1 m2 net.hidden_layers 0 0 x]

/-- C2: saving a well-formed network as a checkpoint record (architecture
fields plus state dict), persisting and re-reading the record, and running
`load_checkpoint` yields a network that is architecturally identical to
the original, has equal parameter values, and computes the same
forward-pass output on every input (the embedding is exact, so equality
holds with zero tolerance). -/
theorem checkpoint_roundtrip (inputSize outputSize : Nat) (net : Network)
    (gw : Nat → Nat → Nat → ℚ) (gb : Nat → Nat → ℚ)
    (h : net.wf inputSize outputSize) :
    ∃ net', load_checkpoint gw gb (checkpointOf inputSize outputSize net) = .ok net' ∧
      net'.hidden_layers.map Linear.inFeatures
        = net.hidden_layers.map Linear.inFeatures ∧
      net'.hidden_layers.map Linear.outFeatures
        = net.hidden_layers.map Linear.outFeatures ∧
      net'.output.inFeatures = net.output.inFeatures ∧
      net'.output.outFeatures = net.output.outFeatures ∧
      net'.state_dict = net.state_dict ∧
      ∀ (training : Bool) (mask : Nat → Nat → ℚ) (x : List ℚ),
        net'.forwardWith training mask x = net.forwardWith training mask x := by
  refine ⟨{ hidden_layers := net.hidden_layers, output := net.output, drop_p := 1 / 2 },
    load_checkpoint_ok inputSize outputSize net gw gb h, rfl, rfl, rfl, rfl, ?_, ?_⟩
  · simp [Network.state_dict]
  · intro training mask x
    simp [Network.forwardWith]

/-- C10: the checkpoint record produced by the save path is
self-consistent: because its hidden widths are queried from the very model
being saved, its three architecture fields exactly determine the shape of
every tensor in its stored state dict. -/
theorem checkpoint_self_consistency (inputSize outputSize : Nat) (net : Network)
    (h : net.wf inputSize outputSize) :
    sdShapes (checkpointOf inputSize outputSize net).state_dict
      = archShapes (checkpointOf inputSize outputSize net).output_size
          (checkpointOf inputSize outputSize net).input_size
          (checkpointOf inputSize outputSize net).hidden_layers := by
  simpa [checkpointOf] using sdShapes_eq_archShapes net inputSize outputSize h

/-- C1: loading a checkpoint record saved from any network with hidden
widths `[512, 256, 128]` into a freshly constructed network declared with
hidden widths `[400, 200, 100]` fails with an error enumerating every
mismatched parameter name together with its shape in the model and its
shape in the checkpoint (`output.bias`, whose shape `[10]` agrees, is not
listed); no network is produced, so nothing is truncated, padded, or
partially populated. -/
theorem load_state_dict_rejects_mismatch
    (l0 l1 l2 out : Linear) (p : ℚ)
    (gw : Nat → Nat → Nat → ℚ) (gb : Nat → Nat → ℚ)
    (h0i : l0.inFeatures = 784) (h0o : l0.outFeatures = 512) (h0w : l0.wfShape)
    (h1i : l1.inFeatures = 512) (h1o : l1.outFeatures = 256) (h1w : l1.wfShape)
    (h2i : l2.inFeatures = 256) (h2o : l2.outFeatures = 128) (h2w : l2.wfShape)
    (hoi : out.inFeatures = 128) (hoo : out.outFeatures = 10) (how : out.wfShape) :
    (Network.make 784 10 [400, 200, 100] gw gb).load_state_dict
        (checkpointOf 784 10 ⟨[l0, l1, l2], out, p⟩).state_dict
      = .error (.shapeMismatch
          [⟨"hidden_layers.0.weight", [400, 784], [512, 784]⟩,
           ⟨"hidden_layers.0.bias", [400], [512]⟩,
           ⟨"hidden_layers.1.weight", [200, 400], [256, 512]⟩,
           ⟨"hidden_layers.1.bias", [200], [256]⟩,
           ⟨"hidden_layers.2.weight", [100, 200], [128, 256]⟩,
           ⟨"hidden_layers.2.bias", [100], [128]⟩,
           ⟨"output.weight", [10, 100], [10, 128]⟩]) := by
  have e0w : l0.weight.length = 512 := by rw [h0w.1, h0o]
  have e0b : l0.bias.length = 512 := by rw [h0w.2.2, h0o]
  have e1w : l1.weight.length = 256 := by rw [h1w.1, h1o]
  have e1b : l1.bias.length = 256 := by rw [h1w.2.2, h1o]
  have e2w : l2.weight.length = 128 := by rw [h2w.1, h2o]
  have e2b : l2.bias.length = 128 := by rw [h2w.2.2, h2o]
  have eow : out.weight.length = 10 := by rw [how.1, hoo]
  have eob : out.bias.length = 10 := by rw [how.2.2, hoo]
  have hkeys : (Network.make 784 10 [400, 200, 100] gw gb).state_dict.map Prod.fst
      = (checkpointOf 784 10 ⟨[l0, l1, l2], out, p⟩).state_dict.map Prod.fst := rfl
  rw [Network.load_state_dict, if_pos hkeys]
  have hsm : shapeMismatches (Network.make 784 10 [400, 200, 100] gw gb).state_dict
      (checkpointOf 784 10 ⟨[l0, l1, l2], out, p⟩).state_dict
      = [⟨"hidden_layers." ++ Nat.repr 0 ++ ".weight", [400, 784], [512, 784]⟩,
         ⟨"hidden_layers." ++ Nat.repr 0 ++ ".bias", [400], [512]⟩,
         ⟨"hidden_layers." ++ Nat.repr 1 ++ ".weight", [200, 400], [256, 512]⟩,
         ⟨"hidden_layers." ++ Nat.repr 1 ++ ".bias", [200], [256]⟩,
         ⟨"hidden_layers." ++ Nat.repr 2 ++ ".weight", [100, 200], [128, 256]⟩,
         ⟨"hidden_layers." ++ Nat.repr 2 ++ ".bias", [100], [128]⟩,
         ⟨"output.weight", [10, 100], [10, 128]⟩] := by
    simp only [Network.make, makeHidden, checkpointOf, Network.state_dict, sdAux,
      List.cons_append, List.nil_append, shapeMismatches, List.zip_cons_cons,
      List.zip_nil_right, List.filterMap_cons, List.filterMap_nil, Tensor.shape_mat,
      Tensor.shape_vec, Linear.init, List.length_map, List.length_range,
      e0w, e0b, e1w, e1b, e2w, e2b, eow, eob, h0i, h1i, h2i, hoi]
    norm_num
  rw [hsm]
  rfl

/-- A zero weight initializer used for concrete instances. -/
def zw : Nat → Nat → Nat → ℚ := fun _ _ _ => 0

/-- A zero bias initializer used for concrete instances. -/
def zb : Nat → Nat → ℚ := fun _ _ => 0

/-- Concrete first hidden layer of a `784 → [512, 256, 128] → 10` network. -/
def w0 : Linear := Linear.init 784 512 (zw 0) (zb 0)

/-- Concrete second hidden layer. -/
def w1 : Linear := Linear.init 512 256 (zw 1) (zb 1)

/-- Concrete third hidden layer. -/
def w2 : Linear := Linear.init 256 128 (zw 2) (zb 2)

/-- Concrete output layer. -/
def wOut : Linear := Linear.init 128 10 (zw 3) (zb 3)

/-- Witness for C1 at a concrete `784 → [512, 256, 128] → 10` network. -/
theorem load_state_dict_rejects_mismatch_witness :
    (w0.inFeatures = 784 ∧ w0.outFeatures = 512 ∧ w0.wfShape) ∧
    (w1.inFeatures = 512 ∧ w1.outFeatures = 256 ∧ w1.wfShape) ∧
    (w2.inFeatures = 256 ∧ w2.outFeatures = 128 ∧ w2.wfShape) ∧
    (wOut.inFeatures = 128 ∧ wOut.outFeatures = 10 ∧ wOut.wfShape) ∧
    (Network.make 784 10 [400, 200, 100] zw zb).load_state_dict
        (checkpointOf 784 10 ⟨[w0, w1, w2], wOut, 1 / 2⟩).state_dict
      = .error (.shapeMismatch
          [⟨"hidden_layers.0.weight", [400, 784], [512, 784]⟩,
           ⟨"hidden_layers.0.bias", [400], [512]⟩,
           ⟨"hidden_layers.1.weight", [200, 400], [256, 512]⟩,
           ⟨"hidden_layers.1.bias", [200], [256]⟩,
           ⟨"hidden_layers.2.weight", [100, 200], [128, 256]⟩,
           ⟨"hidden_layers.2.bias", [100], [128]⟩,
           ⟨"output.weight", [10, 100], [10, 128]⟩]) :=
  ⟨⟨rfl, rfl, Linear.init_wfShape _ _ _ _⟩,
   ⟨rfl, rfl, Linear.init_wfShape _ _ _ _⟩,
   ⟨rfl, rfl, Linear.init_wfShape _ _ _ _⟩,
   ⟨rfl, rfl, Linear.init_wfShape _ _ _ _⟩,
   load_state_dict_rejects_mismatch w0 w1 w2 wOut (1 / 2) zw zb
     rfl rfl (Linear.init_wfShape _ _ _ _)
     rfl rfl (Linear.init_wfShape _ _ _ _)
     rfl rfl (Linear.init_wfShape _ _ _ _)
     rfl rfl (Linear.init_wfShape _ _ _ _)⟩

/-- Witness for C2 at a concrete `2 → [2] → 3` network. -/
theorem checkpoint_roundtrip_witness :
    (Network.make 2 3 [2] zw zb).wf 2 3 ∧
    (∃ net', load_checkpoint zw zb
          (checkpointOf 2 3 (Network.make 2 3 [2] zw zb)) = .ok net' ∧
      net'.hidden_layers.map Linear.inFeatures
        = (Network.make 2 3 [2] zw zb).hidden_layers.map Linear.inFeatures ∧
      net'.hidden_layers.map Linear.outFeatures
        = (Network.make 2 3 [2] zw zb).hidden_layers.map Linear.outFeatures ∧
      net'.output.inFeatures = (Network.make 2 3 [2] zw zb).output.inFeatures ∧
      net'.output.outFeatures = (Network.make 2 3 [2] zw zb).output.outFeatures ∧
      net'.state_dict = (Network.make 2 3 [2] zw zb).state_dict ∧
      ∀ (training : Bool) (mask : Nat → Nat → ℚ) (x : List ℚ),
        net'.forwardWith training mask x
          = (Network.make 2 3 [2] zw zb).forwardWith training mask x) :=
  ⟨make_wf 2 3 [2] zw zb,
   checkpoint_roundtrip 2 3 (Network.make 2 3 [2] zw zb) zw zb (make_wf 2 3 [2] zw zb)⟩

/-- Witness for C10 at a concrete `2 → [2] → 3` network. -/
theorem checkpoint_self_consistency_witness :
    (Network.make 2 3 [2] zw zb).wf 2 3 ∧
    sdShapes (checkpointOf 2 3 (Network.make 2 3 [2] zw zb)).state_dict
      = archShapes (checkpointOf 2 3 (Network.make 2 3 [2] zw zb)).output_size
          (checkpointOf 2 3 (Network.make 2 3 [2] zw zb)).input_size
          (checkpointOf 2 3 (Network.make 2 3 [2] zw zb)).hidden_layers :=
  ⟨make_wf 2 3 [2] zw zb,
   checkpoint_self_consistency 2 3 (Network.make 2 3 [2] zw zb) (make_wf 2 3 [2] zw zb)⟩

/-- The mutable training state the optimizer acts on: the flattened
parameter vector and the gradient buffer stored alongside it. -/
structure ParamState where
  params : List ℚ
  grads : List ℚ
deriving DecidableEq

/-- Elementwise vector addition. -/
def addV (u v : List ℚ) : List ℚ := List.zipWith (fun a b => a + b) u v

/-- Modelled from the spec: `loss.backward()` — the gradient computed for
the current batch is ADDED into the stored gradient buffer (gradients are
additive across calls unless explicitly reset); the parameters are left
untouched. -/
def backwardAdd (s : ParamState) (g : List ℚ) : ParamState :=
  { s with grads := addV s.grads g }

/-- Modelled from the spec: `optimizer.zero_grad()` — discard the
accumulated gradients, resetting the buffer to zero. -/
def zeroGrad (s : ParamState) : ParamState :=
  { s with grads := s.grads.map fun _ => 0 }

/-- One forward/backward computation on a fixed batch: the gradient is a
function of the current parameters only (the batch is fixed), and
`backward` accumulates it. -/
def forwardBackward (gradOf : List ℚ → List ℚ) (s : ParamState) : ParamState :=
  backwardAdd s (gradOf s.params)

/-- Modelled from the spec: `optimizer.step()` for plain SGD — every
parameter is updated in place by subtracting `lr` times its current
stored gradient. -/
def sgdStep (lr : ℚ) (s : ParamState) : ParamState :=
  { s with params := List.zipWith (fun p g => p - lr * g) s.params s.grads }

/-- One iteration of the training loop (cell 14): reset gradients, run
forward and backward, step the optimizer; the only value produced beyond
the mutated state is the scalar loss used for logging. -/
def trainingStep (lr : ℚ) (gradOf : List ℚ → List ℚ) (lossOf : List ℚ → ℚ)
    (s : ParamState) : ℚ × ParamState :=
  (lossOf s.params, sgdStep lr (forwardBackward gradOf (zeroGrad s)))

theorem addV_map_zero : ∀ (v g : List ℚ), g.length = v.length →
    addV (v.map fun _ => 0) g = g
  | [], [], _ => rfl
  | [], _ :: _, h => by simp at h
  | _ :: _, [], _ => rfl
  | a :: v, b :: g, h => by
    simp only [List.length_cons, Nat.add_right_cancel_iff] at h
    simp only [List.map_cons, addV, List.zipWith_cons_cons, zero_add]
    exact congrArg (b :: ·) (addV_map_zero v g h)

/-- C5: on a fixed batch and fixed parameter state, running
forward/backward twice with a gradient reset between the runs stores the
same gradient both times, while omitting the reset stores the sum of the
two successive single-batch gradients; the parameters themselves are not
touched by the backward pass. -/
theorem gradient_reset_vs_accumulation (gradOf : List ℚ → List ℚ) (s : ParamState)
    (h : (gradOf s.params).length = s.grads.length) :
    (forwardBackward gradOf (zeroGrad s)).params = s.params ∧
    (forwardBackward gradOf (zeroGrad s)).grads = gradOf s.params ∧
    (forwardBackward gradOf (zeroGrad (forwardBackward gradOf (zeroGrad s)))).grads
      = (forwardBackward gradOf (zeroGrad s)).grads ∧
    (forwardBackward gradOf (forwardBackward gradOf (zeroGrad s))).grads
      = addV (gradOf s.params) (gradOf s.params) := by
  have h1 : (forwardBackward gradOf (zeroGrad s)).grads = gradOf s.params :=
    addV_map_zero s.grads (gradOf s.params) (by simpa using h)
  refine ⟨rfl, h1, ?_, ?_⟩
  · show addV ((forwardBackward gradOf (zeroGrad s)).grads.map fun _ => 0)
        (gradOf s.params) = (forwardBackward gradOf (zeroGrad s)).grads
    rw [h1]
    exact addV_map_zero _ _ rfl
  · show addV (forwardBackward gradOf (zeroGrad s)).grads (gradOf s.params)
        = addV (gradOf s.params) (gradOf s.params)
    rw [h1]

/-- Concrete gradient function for witnesses: doubles each parameter. -/
def exGrad : List ℚ → List ℚ := fun p => p.map fun a => a + a

/-- Concrete loss function for witnesses. -/
def exLoss : List ℚ → ℚ := fun p => p.sum

/-- Concrete optimizer state for witnesses. -/
def exState : ParamState := ⟨[1, 2], [0, 0]⟩

/-- Witness for C5 at a concrete two-parameter state. -/
theorem gradient_reset_vs_accumulation_witness :
    (exGrad exState.params).length = exState.grads.length ∧
    ((forwardBackward exGrad (zeroGrad exState)).params = exState.params ∧
     (forwardBackward exGrad (zeroGrad exState)).grads = exGrad exState.params ∧
     (forwardBackward exGrad
         (zeroGrad (forwardBackward exGrad (zeroGrad exState)))).grads
       = (forwardBackward exGrad (zeroGrad exState)).grads ∧
     (forwardBackward exGrad (forwardBackward exGrad (zeroGrad exState))).grads
       = addV (exGrad exState.params) (exGrad exState.params)) :=
  ⟨by decide, gradient_reset_vs_accumulation exGrad exState (by decide)⟩

/-- C6: a training step updates every parameter in place by subtracting
`learning_rate × its current gradient` (the gradient just computed for
the batch), and produces no value beyond the scalar loss alongside the
mutated state. -/
theorem sgd_parameter_update (lr : ℚ) (gradOf : List ℚ → List ℚ)
    (lossOf : List ℚ → ℚ) (s : ParamState)
    (h : (gradOf s.params).length = s.grads.length) :
    (trainingStep lr gradOf lossOf s).1 = lossOf s.params ∧
    (trainingStep lr gradOf lossOf s).2.params
      = List.zipWith (fun p g => p - lr * g) s.params (gradOf s.params) ∧
    (trainingStep lr gradOf lossOf s).2.grads = gradOf s.params := by
  have h1 : (forwardBackward gradOf (zeroGrad s)).grads = gradOf s.params :=
    addV_map_zero s.grads (gradOf s.params) (by simpa using h)
  refine ⟨rfl, ?_, ?_⟩
  · show List.zipWith (fun p g => p - lr * g) s.params
        (forwardBackward gradOf (zeroGrad s)).grads = _
    rw [h1]
  · show (forwardBackward gradOf (zeroGrad s)).grads = _
    exact h1

/-- Witness for C6 at a concrete two-parameter state. -/
theorem sgd_parameter_update_witness :
    (exGrad exState.params).length = exState.grads.length ∧
    ((trainingStep (1 / 100) exGrad exLoss exState).1 = exLoss exState.params ∧
     (trainingStep (1 / 100) exGrad exLoss exState).2.params
       = List.zipWith (fun p g => p - (1 / 100) * g) exState.params
           (exGrad exState.params) ∧
     (trainingStep (1 / 100) exGrad exLoss exState).2.grads
       = exGrad exState.params) :=
  ⟨by decide, sgd_parameter_update (1 / 100) exGrad exLoss exState (by decide)⟩

/-- Flattening of one sample tensor (e.g. `1 × 28 × 28`) into its
row-major data vector. -/
def flattenSample (img : List (List (List ℚ))) : List ℚ :=
  (img.map List.flatten).flatten

/-- The in-place reshape `data.resize_(bs, n)`: reinterpret the contiguous
row-major data as `bs` consecutive rows of length `n`. -/
def resizeRows : Nat → Nat → List ℚ → List (List ℚ)
  | 0, _, _ => []
  | bs + 1, n, data => data.take n :: resizeRows bs n (data.drop n)

/-- The training loop's `images.resize_(images.size()[0], 784)`: the
batch keeps its sample count as the first dimension and the remaining
data of each sample is laid out as one 784-long row. -/
def resizeBatch (images : List (List (List (List ℚ)))) : List (List ℚ) :=
  resizeRows images.length 784 ((images.map flattenSample).flatten)

theorem resizeRows_flatten (n : Nat) : ∀ xs : List (List ℚ),
    (∀ v ∈ xs, v.length = n) → resizeRows xs.length n xs.flatten = xs := by
  intro xs
  induction xs with
  | nil => intro _; rfl
  | cons v xs ih =>
    intro h
    have hv : v.length = n := h v (List.mem_cons_self v xs)
    simp only [List.length_cons, List.flatten_cons, resizeRows]
    rw [List.take_left' hv, List.drop_left' hv]
    exact congrArg (v :: ·) (ih fun u hu => h u (List.mem_cons_of_mem v hu))

/-- C8: resizing a batch whose samples each flatten to 784 elements
produces exactly the per-sample flattened vectors: the number of samples
is preserved and every row is the 1-D length-784 vector of its sample. -/
theorem batch_flattening (images : List (List (List (List ℚ))))
    (h : ∀ img ∈ images, (flattenSample img).length = 784) :
    resizeBatch images = images.map flattenSample ∧
    (resizeBatch images).length = images.length ∧
    ∀ v ∈ resizeBatch images, v.length = 784 := by
  have hmain : resizeBatch images = images.map flattenSample := by
    rw [resizeBatch, ← List.length_map images flattenSample]
    refine resizeRows_flatten 784 (images.map flattenSample) ?_
    intro v hv
    obtain ⟨img, himg, rfl⟩ := List.mem_map.1 hv
    exact h img himg
  refine ⟨hmain, by rw [hmain, List.length_map], ?_⟩
  intro v hv
  rw [hmain] at hv
  obtain ⟨img, himg, rfl⟩ := List.mem_map.1 hv
  exact h img himg

/-- Concrete one-sample batch for the C8 witness. -/
def exBatch : List (List (List (List ℚ))) := [[[List.replicate 784 0]]]

/-- Witness for C8 at a concrete one-sample batch. -/
theorem exBatch_flat_length : ∀ img ∈ exBatch, (flattenSample img).length = 784 := by
  intro img himg
  simp only [exBatch, List.mem_singleton] at himg
  subst himg
  simp only [flattenSample, List.map_cons, List.map_nil, List.flatten_cons,
    List.flatten_nil, List.append_nil, List.length_replicate]

/-- Witness for C8 at a concrete one-sample batch. -/
theorem batch_flattening_witness :
    (∀ img ∈ exBatch, (flattenSample img).length = 784) ∧
    (resizeBatch exBatch = exBatch.map flattenSample ∧
     (resizeBatch exBatch).length = exBatch.length ∧
     ∀ v ∈ resizeBatch exBatch, v.length = 784) :=
  ⟨exBatch_flat_length, batch_flattening exBatch exBatch_flat_length⟩

/-- One operation of the Part 3 `nn.Sequential` model: an affine layer or
a ReLU activation (the model assembled in cell 6 contains no softmax
operation). -/
inductive P3Layer where
  | linear (l : Linear)
  | reluL

/-- Application of one sequential operation to the running tensor. -/
def P3Layer.apply : P3Layer → List ℚ → List ℚ
  | .linear l, x => l.apply x
  | .reluL, x => relu x

/-- Semantics of `nn.Sequential`: the input tensor is passed through the
operations in order. -/
def seqForward (layers : List P3Layer) (x : List ℚ) : List ℚ :=
  layers.foldl (fun v layer => layer.apply v) x

/-- The Part 3 training model (cell 6): `fc1`, `relu1`, `fc2`, `relu2`,
`logits` — the final affine layer is the last operation. -/
def part3Model (fc1 fc2 lg : Linear) : List P3Layer :=
  [.linear fc1, .reluL, .linear fc2, .reluL, .linear lg]

/-- C4 (amended): the Part 3 training model's forward pass applies each
hidden affine transform followed by ReLU and returns the final affine
transform's raw output — the sequential fold ends at the `logits` layer
with no terminal nonlinearity (normalization happens only in the loss or
in the separate inference step). -/
theorem part3_forward_returns_raw_logits (fc1 fc2 lg : Linear) (x : List ℚ) :
    seqForward (part3Model fc1 fc2 lg) x
      = lg.apply (relu (fc2.apply (relu (fc1.apply x)))) := rfl

/-- Real-valued dot product, for the parts of the source that use
`F.softmax`. -/
def dotR (r x : List ℝ) : ℝ := (List.zipWith (fun a b => a * b) r x).sum

/-- Real-valued affine layer application. -/
def affineR (w : List (List ℝ)) (b : List ℝ) (x : List ℝ) : List ℝ :=
  List.zipWith (fun row bi => dotR row x + bi) w b

/-- Real-valued elementwise ReLU. -/
def reluR (v : List ℝ) : List ℝ := v.map fun a => max a 0

/-- Softmax `F.softmax(v, dim=1)` on one row: each score is exponentiated and
normalized by the sum of the exponentials. -/
noncomputable def softmaxR (v : List ℝ) : List ℝ :=
  v.map fun a => Real.exp a / (v.map Real.exp).sum

/-- The Part 2 notebook's Method 1 `Network.forward`
(`fc1 → relu → fc2 → relu → fc3 → F.softmax`): the returned value is the
softmax of the final affine output, not the raw output itself. -/
noncomputable def p1Forward (w1 : List (List ℝ)) (b1 : List ℝ) (w2 : List (List ℝ)) (b2 : List ℝ)
    (w3 : List (List ℝ)) (b3 : List ℝ) (x : List ℝ) : List ℝ :=
  softmaxR (affineR w3 b3 (reluR (affineR w2 b2 (reluR (affineR w1 b1 x)))))

/-- An `m × n` zero weight matrix. -/
def zeroM (m n : Nat) : List (List ℝ) := List.replicate m (List.replicate n 0)

/-- A zero vector of length `n`. -/
def zeroV (n : Nat) : List ℝ := List.replicate n 0

theorem dotR_zero : ∀ (n : Nat) (x : List ℝ), dotR (List.replicate n 0) x = 0
  | 0, x => by simp [dotR]
  | n + 1, [] => by simp [dotR]
  | n + 1, a :: x => by
    simp only [List.replicate_succ, dotR, List.zipWith_cons_cons, List.sum_cons,
      zero_mul, zero_add]
    exact dotR_zero n x

theorem affineR_zero : ∀ (m n : Nat) (x : List ℝ),
    affineR (zeroM m n) (zeroV m) x = zeroV m
  | 0, _, _ => rfl
  | m + 1, n, x => by
    simp only [zeroM, zeroV, List.replicate_succ, affineR, List.zipWith_cons_cons,
      dotR_zero, add_zero]
    exact congrArg (0 :: ·) (affineR_zero m n x)

theorem reluR_zero (m : Nat) : reluR (zeroV m) = zeroV m := by
  simp [reluR, zeroV, List.map_replicate]

theorem softmaxR_zero_ten : softmaxR (zeroV 10) = List.replicate 10 (1 / 10) := by
  simp only [softmaxR, zeroV, List.map_replicate, Real.exp_zero, List.sum_replicate]
  norm_num

/-- C4 counterexample: at the all-zero parameter state and the zero input,
the Part 2 `Network.forward` returns the uniform distribution
`replicate 10 (1/10)` — the softmax of the logits — whereas the final
affine transform's raw output is the zero vector, so the forward pass does
not return the raw logits. -/
theorem part_001_forward_not_raw_logits :
    p1Forward (zeroM 128 784) (zeroV 128) (zeroM 64 128) (zeroV 64)
        (zeroM 10 64) (zeroV 10) (zeroV 784)
      ≠ affineR (zeroM 10 64) (zeroV 10)
          (reluR (affineR (zeroM 64 128) (zeroV 64)
            (reluR (affineR (zeroM 128 784) (zeroV 128) (zeroV 784))))) := by
  have hraw : affineR (zeroM 10 64) (zeroV 10)
      (reluR (affineR (zeroM 64 128) (zeroV 64)
        (reluR (affineR (zeroM 128 784) (zeroV 128) (zeroV 784))))) = zeroV 10 := by
    simp only [affineR_zero, reluR_zero]
  rw [p1Forward, hraw, softmaxR_zero_ten]
  intro hEq
  have h10 : (1 / 10 : ℝ) = 0 := by
    have h' := congrArg (fun l : List ℝ => l.headD 0) hEq
    simp only [zeroV, List.replicate_succ, List.headD_cons] at h'
    exact h'
  norm_num at h10

/-- The parameter state of the Part 3 model as the inference cell sees
it. -/
structure P3StateR where
  fc1W : List (List ℝ)
  fc1B : List ℝ
  fc2W : List (List ℝ)
  fc2B : List ℝ
  logitsW : List (List ℝ)
  logitsB : List ℝ

/-- Forward pass of the Part 3 model over the reals. -/
def P3StateR.forwardR (m : P3StateR) (x : List ℝ) : List ℝ :=
  affineR m.logitsW m.logitsB
    (reluR (affineR m.fc2W m.fc2B (reluR (affineR m.fc1W m.fc1B x))))

/-- All parameter tensors of the model, in state-dict order. -/
def P3StateR.stateDictR (m : P3StateR) :
    List (List ℝ) × List ℝ × List (List ℝ) × List ℝ × List (List ℝ) × List ℝ :=
  (m.fc1W, m.fc1B, m.fc2W, m.fc2B, m.logitsW, m.logitsB)

/-- The inference cell (cell 16): under `no_grad`, compute logits by a
forward pass and probabilities by `F.softmax`; the cell contains no
assignment to any parameter, so the model state threads through
unchanged. -/
noncomputable def predictR (m : P3StateR) (img : List ℝ) : List ℝ × P3StateR :=
  (softmaxR (m.forwardR img), m)

/-- C9: inference does not mutate the model — computing predictions by a
forward pass followed by softmax over the logits returns exactly the
softmaxed logits, and the network's state dict after inference is
identical to the state dict before. -/
theorem inference_preserves_parameters (m : P3StateR) (img : List ℝ) :
    (predictR m img).1 = softmaxR (m.forwardR img) ∧
    (predictR m img).2.stateDictR = m.stateDictR :=
  ⟨rfl, rfl⟩

